import Mathlib

/-!
Shallow embedding of the templatebot Telegram marketplace bot (src/bot.py)
and proofs about its helper functions, poller and callback handlers.

Python strings are modelled as Lean `String` (lists of characters), Python
`None` as `Option.none`, Firestore documents as a record type, the
`templates` collection as an association list keyed by document id, and the
numeric values produced by Python `float` as exact rationals.  Python
exceptions that can escape a handler are modelled with an explicit error
field of the handler result.
-/

namespace TemplateBot

/-! ### Python string primitives used by bot.py -/

/-- Python `str.split` on the underscore delimiter (as used for callback
payloads).  Always returns a non-empty list of (possibly empty) pieces. -/
def splitUnd : List Char → List (List Char)
  | [] => [[]]
  | c :: cs =>
    if c = '_' then [] :: splitUnd cs
    else
      match splitUnd cs with
      | [] => [[c]]
      | h :: t => (c :: h) :: t

/-- The ASCII whitespace characters removed by Python `str.strip()`. -/
def pySpace (c : Char) : Bool :=
  c = ' ' || c = '\t' || c = '\n' || c = '\r' || c = '\x0b' || c = '\x0c'

/-- Python `str.strip()` on a character list. -/
def pyStrip (l : List Char) : List Char :=
  ((l.dropWhile pySpace).reverse.dropWhile pySpace).reverse

/-- Does `pat` occur at the head of the list (`str.startswith`)? -/
def leadsWith : List Char → List Char → Bool
  | [], _ => true
  | _ :: _, [] => false
  | p :: ps, c :: cs => if p = c then leadsWith ps cs else false

/-- Python substring containment (`pat in s`), for a fixed pattern. -/
def hasSub (pat : List Char) : List Char → Bool
  | [] => leadsWith pat []
  | c :: rest => leadsWith pat (c :: rest) || hasSub pat rest

/-! ### Price Formatter (bot.py lines 73 to 79) -/

/-- Numeric value of a list of decimal digit characters. -/
def digitsVal (l : List Char) : ℕ :=
  l.foldl (fun a c => 10 * a + (c.toNat - 48)) 0

/-- Exponent part of a Python float literal: optional sign then digits. -/
def parseExp (cs : List Char) : Option ℤ :=
  let neg : Bool := cs.head? = some '-'
  let r := if cs.head? = some '+' || cs.head? = some '-' then cs.tail else cs
  if r = [] || !r.all Char.isDigit then none
  else some (if neg then -(digitsVal r : ℤ) else (digitsVal r : ℤ))

/-- The fragment of Python `float(str)` parsing used by `parse_price`:
optional sign, integer digits, optional fractional part, optional exponent.
The model omits the `inf`/`nan` literals and underscore digit grouping,
which no currency string uses. -/
def pyFloat (l : List Char) : Option ℚ :=
  let neg : Bool := l.head? = some '-'
  let cs := if l.head? = some '+' || l.head? = some '-' then l.tail else l
  let ip := cs.takeWhile Char.isDigit
  let r1 := cs.dropWhile Char.isDigit
  let step : ℚ × List Char × Bool :=
    if r1.head? = some '.' then
      ((digitsVal ip : ℚ) + (digitsVal (r1.tail.takeWhile Char.isDigit) : ℚ) /
          (10 : ℚ) ^ (r1.tail.takeWhile Char.isDigit).length,
       r1.tail.dropWhile Char.isDigit,
       !(ip.isEmpty && (r1.tail.takeWhile Char.isDigit).isEmpty))
    else ((digitsVal ip : ℚ), r1, !ip.isEmpty)
  if step.2.2 = false then none
  else
    let mant : ℚ := if neg then -step.1 else step.1
    if step.2.1 = [] then some mant
    else if step.2.1.head? = some 'e' || step.2.1.head? = some 'E' then
      (parseExp step.2.1.tail).map (fun e => mant * (10 : ℚ) ^ e)
    else none

/-- Python `str.replace(ch, "")`: drop every occurrence of one character. -/
def removeChar (c : Char) (l : List Char) : List Char :=
  l.filter (fun x => x ≠ c)

/-- `parse_price` (bot.py line 73): strips the dollar sign, thousands
separators and surrounding whitespace, parses as a float and multiplies by
ten; any `ValueError` (parse failure) or `AttributeError` (`None` input)
yields `0.0`. -/
def parse_price (price_str : Option String) : ℚ :=
  match price_str with
  | none => 0
  | some s =>
    match pyFloat (pyStrip (removeChar ',' (removeChar '$' s.data))) with
    | some q => q * 10
    | none => 0

/-! ### Caption Renderer (bot.py lines 81 to 90) -/

/-- Per-character expansion performed by Python `html.escape` (with quote
escaping, the default). -/
def escChar (c : Char) : List Char :=
  if c = '&' then ['&', 'a', 'm', 'p', ';']
  else if c = '<' then ['&', 'l', 't', ';']
  else if c = '>' then ['&', 'g', 't', ';']
  else if c = '"' then ['&', 'q', 'u', 'o', 't', ';']
  else if c = '\'' then ['&', '#', 'x', '2', '7', ';']
  else [c]

/-- Character-list version of `html.escape`. -/
def escList : List Char → List Char
  | [] => []
  | c :: cs => escChar c ++ escList cs

/-- Python `html.escape`. -/
def htmlEscape (s : String) : String := String.mk (escList s.data)

/-- Two decimal digit characters for a value below one hundred. -/
def digitChar (d : ℕ) : Char := Char.ofNat (48 + d)

/-- Two-digit zero-padded decimal rendering (the cents of a price). -/
def pad2 (n : ℕ) : List Char :=
  if n < 10 then ['0', digitChar n] else [digitChar (n / 10), digitChar (n % 10)]

/-- Round to the nearest integer, ties to even, as Python float formatting
does. -/
def roundHalfEven (x : ℚ) : ℤ :=
  let f := ⌊x⌋
  if x - f < 1 / 2 then f
  else if 1 / 2 < x - f then f + 1
  else if f % 2 = 0 then f else f + 1

/-- Python `f"{x:.2f}"` on the exact rational value. -/
def fmt2 (q : ℚ) : String :=
  let n : ℤ := roundHalfEven (q * 100)
  if n < 0 then
    "-" ++ toString ((-n).toNat / 100) ++ "." ++ String.mk (pad2 ((-n).toNat % 100))
  else toString (n.toNat / 100) ++ "." ++ String.mk (pad2 (n.toNat % 100))

/-- A stored template record (the fields of a `templates` document read by
the bot).  A field holding `none` models an absent key, as read by Python
`dict.get`. -/
structure Doc where
  name : Option String := none
  description : Option String := none
  price : Option String := none
  image_drive_link : Option String := none
  preview_link : Option String := none
  zip_drive_link : Option String := none
  website_zip : Option String := none
  status : String := "pending"
deriving Repr, DecidableEq

/-- `get_template_caption` (bot.py line 81): three `<pre>` lines with the
escaped name, the formatted price and the escaped description. -/
def get_template_caption (doc_data : Doc) : String :=
  let name := htmlEscape (doc_data.name.getD "N/A")
  let price := parse_price (some (doc_data.price.getD "$0"))
  let desc := htmlEscape (doc_data.description.getD "No description")
  "<pre>Name: " ++ name ++ "</pre>\n" ++
    "<pre>Price: " ++ fmt2 price ++ " Birr</pre>\n" ++
    "<pre>Description: " ++ desc ++ "</pre>\n"

/-! ### Link Normalizer (bot.py lines 110 to 119) -/

/-- After a `d`, the regex `d/([^/]+)` needs a `/` followed by at least one
non-`/` character; on success the capture is the maximal non-`/` run. -/
def dMatch : List Char → Option (List Char)
  | '/' :: c2 :: rest2 =>
    if c2 = '/' then none else some (c2 :: rest2.takeWhile (fun x => x ≠ '/'))
  | _ => none

/-- `re.search(r'd/([^/]+)', link)`: first occurrence of `d/` followed by at
least one character other than `/`; the capture is the maximal run of
non-`/` characters after the `d/`. -/
def reSearchD : List Char → Option (List Char)
  | [] => none
  | c :: rest =>
    if c = 'd' then
      match dMatch rest with
      | some res => some res
      | none => reSearchD rest
    else reSearchD rest

/-- `fix_drive_link` (bot.py line 110): rewrite a Google Drive sharing link
to a direct download link; anything else passes through unchanged. -/
def fix_drive_link (link : String) : String :=
  if link = "" then link
  else if hasSub "drive.google.com".data link.data = false then link
  else
    match reSearchD link.data with
    | some file_id => "https://drive.google.com/uc?id=" ++ String.mk file_id
    | none => link

/-! ### Store, effects and handler results -/

/-- The `templates` collection: an association list from document id to
document data.  Firestore document ids are unique; lookups find the first
entry with the given id. -/
abbrev Store := List (String × Doc)

/-- Firestore document read (`.get()` followed by `.to_dict()`); `none`
when the document does not exist. -/
def Store.lookup (store : Store) (id : String) : Option Doc :=
  (store.find? (fun p => p.1 = id)).map Prod.snd

/-- Firestore `document(id).update({...})`: apply `f` to the document with
the given id, leaving every other document unchanged. -/
def Store.setDoc (store : Store) (id : String) (f : Doc → Doc) : Store :=
  store.map (fun p => if p.1 = id then (p.1, f p.2) else p)

/-- A message destination: the registered admin chat, the public channel,
or a buyer chat (identified by the chat id string in the callback
payload). -/
inductive Chat where
  | admin (id : ℤ)
  | channel (id : String)
  | buyer (id : String)
deriving Repr, DecidableEq

/-- An inline keyboard button: a callback button or a URL button (whose URL
may be `None`, exactly as the code can pass `doc_data.get(...)`). -/
inductive Button where
  | cb (text : String) (payload : String)
  | link (text : String) (urlv : Option String)
deriving Repr, DecidableEq

/-- An observable side effect of a handler or a poll tick, in order. -/
inductive Effect where
  | answerQuery
  | sendPhoto (chat : Chat) (photo : Option String) (caption : String)
      (kb : List (List Button))
  | sendMessage (chat : Chat) (text : String)
  | editCaption (text : String)
  | logInfo (msg : String)
  | logWarning (msg : String)
  | logError (msg : String)
deriving Repr, DecidableEq

/-- A Python exception escaping a handler. -/
inductive PyErr where
  | indexError
  | attributeError
deriving Repr, DecidableEq

/-- Result of running one callback handler: the store afterwards, the
effects emitted before returning or raising, and the exception that
escaped, if any. -/
structure HResult where
  store : Store
  effects : List Effect
  err : Option PyErr
deriving Repr, DecidableEq

/-- Static configuration read by the handlers: the public channel id and
the bot username returned by `get_me()`. -/
structure Config where
  publicChannelId : String
  botUsername : String
deriving Repr, DecidableEq

/-! ### Admin approval callback (bot.py lines 167 to 205) -/

/-- `handle_admin_approval`: decode `adm_{acc|rej}_{docId}`, look the record
up, and either report a missing record, accept (update status, publish to
the channel with a Preview/Buy keyboard, confirm), or reject (update
status, confirm).  Indexing `parts[1]`/`parts[2]` on a short payload raises
`IndexError`. -/
def handle_admin_approval (cfg : Config) (store : Store) (payload : String) : HResult :=
  let parts := splitUnd payload.data
  match parts.get? 1, parts.get? 2 with
  | some actionCs, some docCs =>
    let action := String.mk actionCs
    let doc_id := String.mk docCs
    match Store.lookup store doc_id with
    | none =>
      ⟨store, [.answerQuery,
               .editCaption "❌ Error: Template no longer exists in Firestore."], none⟩
    | some doc_data =>
      if action = "acc" then
        let store2 := Store.setDoc store doc_id (fun d => { d with status := "accepted" })
        let buy_url := "https://t.me/" ++ cfg.botUsername ++ "?start=" ++ doc_id
        ⟨store2,
         [.answerQuery,
          .sendPhoto (.channel cfg.publicChannelId) doc_data.image_drive_link
            (get_template_caption doc_data)
            [[.link "Preview" doc_data.preview_link, .link "Buy" (some buy_url)]],
          .editCaption "✅ Template Posted to Channel."], none⟩
      else if action = "rej" then
        ⟨Store.setDoc store doc_id (fun d => { d with status := "rejected" }),
         [.answerQuery, .editCaption "❌ Template Rejected."], none⟩
      else ⟨store, [.answerQuery], none⟩
  | _, _ => ⟨store, [.answerQuery], some .indexError⟩

/-! ### Payment verification callback (bot.py lines 261 to 283) -/

/-- The deliverable link resolution on payment acceptance:
`data.get('zip_drive_link') or data.get('website_zip') or "Link not
found."` with Python truthiness (absent and empty both falsy). -/
def resolve_download_link (d : Doc) : String :=
  match d.zip_drive_link with
  | some z =>
    if z = "" then
      match d.website_zip with
      | some w => if w = "" then "Link not found." else w
      | none => "Link not found."
    else z
  | none =>
    match d.website_zip with
    | some w => if w = "" then "Link not found." else w
    | none => "Link not found."

/-- `handle_payment_verification`: decode `pay_{acc|rej}_{docId}_{chatId}`.
On accept, read the record and message the buyer the resolved download
link; if the record does not exist, `to_dict()` returns `None` and
`data.get(...)` raises `AttributeError`.  On anything other than accept,
message the buyer that verification failed.  The store is never written. -/
def handle_payment_verification (store : Store) (payload : String) : HResult :=
  let parts := splitUnd payload.data
  match parts.get? 1, parts.get? 2, parts.get? 3 with
  | some actionCs, some docCs, some userCs =>
    let action := String.mk actionCs
    let doc_id := String.mk docCs
    let user_chat_id := String.mk userCs
    if action = "acc" then
      match Store.lookup store doc_id with
      | none => ⟨store, [.answerQuery], some .attributeError⟩
      | some d =>
        ⟨store,
         [.answerQuery,
          .sendMessage (.buyer user_chat_id)
            ("✅ Payment Verified! Here is your download link:\n\n" ++
              resolve_download_link d),
          .editCaption "✅ Payment Accepted. Download link sent."], none⟩
    else
      ⟨store,
       [.answerQuery,
        .sendMessage (.buyer user_chat_id)
          "❌ Payment verification failed. Please re-upload a valid payment screenshot.",
        .editCaption "❌ Payment Rejected. User notified."], none⟩
  | _, _, _ => ⟨store, [.answerQuery], some .indexError⟩

/-! ### Poller (bot.py lines 121 to 163) -/

/-- The inline keyboard built for one pending record: Accept and Reject
callback buttons, plus a Preview URL button when the preview link is
present, non-empty and starts with `http`. -/
def pollKeyboard (doc_id : String) (d : Doc) : List (List Button) :=
  let base := [[Button.cb "Accept" ("adm_acc_" ++ doc_id),
                Button.cb "Reject" ("adm_rej_" ++ doc_id)]]
  match d.preview_link with
  | some p =>
    if p ≠ "" ∧ leadsWith "http".data p.data = true then
      base ++ [[Button.link "Preview" (some p)]]
    else base
  | none => base

/-- One iteration of the poll loop body for one record.  `ok doc_id` models
whether the `send_photo` dispatch to the admin succeeds; on success the
record status is updated to waiting, on failure the error is logged and the
record is left untouched. -/
def pollStep (a : ℤ) (ok : String → Bool) (p : String × Doc) :
    (String × Doc) × List Effect :=
  let doc_id := p.1
  let d := p.2
  if d.status = "pending" then
    if ok doc_id then
      ((doc_id, { d with status := "waiting" }),
       [.sendPhoto (.admin a) (d.image_drive_link.map fix_drive_link)
          (get_template_caption d) (pollKeyboard doc_id d),
        .logInfo ("Post " ++ doc_id ++ " moved to waiting status.")])
    else ((doc_id, d), [.logError ("Error sending pending post " ++ doc_id)])
  else ((doc_id, d), [])

/-- The poll loop over the whole store, in stream order. -/
def runPoll (a : ℤ) (ok : String → Bool) : Store → Store × List Effect
  | [] => ([], [])
  | p :: rest =>
    ((pollStep a ok p).1 :: (runPoll a ok rest).1,
     (pollStep a ok p).2 ++ (runPoll a ok rest).2)

/-- `check_pending_templates` (bot.py line 121): skip the tick with a
warning when no admin is registered, otherwise process every record
(non-pending records are skipped by the status query). -/
def check_pending_templates (admin : Option ℤ) (ok : String → Bool)
    (store : Store) : Store × List Effect :=
  match admin with
  | none => (store, [.logWarning "Scheduled task ran but no admin is registered yet."])
  | some a => runPoll a ok store

/-- Is an effect an admin notification (a photo dispatch)? -/
def isNotif : Effect → Bool
  | .sendPhoto _ _ _ _ => true
  | _ => false

/-- Is an effect a publication to the public channel? -/
def isPublish : Effect → Bool
  | .sendPhoto (.channel _) _ _ _ => true
  | _ => false

/-! ### Sample concrete values for instantiations -/

/-- A sample configuration. -/
def cfgW : Config := { publicChannelId := "@channel", botUsername := "tmplbot" }

/-- A sample stored template record in waiting status. -/
def dW : Doc :=
  { name := some "Logo<1>", description := some "A & B", price := some "$17.00",
    image_drive_link := some "https://drive.google.com/file/d/IMG/view",
    preview_link := some "http://prev", zip_drive_link := some "",
    website_zip := some "https://w.example/z.zip", status := "waiting" }

/-- The same record in pending status. -/
def dP : Doc := { dW with status := "pending" }

/-! ### Basic lemmas about the string primitives -/

theorem data_append (s t : String) : (s ++ t).data = s.data ++ t.data := rfl

theorem mk_data (s : String) : String.mk s.data = s := rfl

theorem splitUnd_no_und (l : List Char) (h : '_' ∉ l) : splitUnd l = [l] := by
  induction l with
  | nil => rfl
  | cons c cs ih =>
    have hc : c ≠ '_' := fun e => h (List.mem_cons.mpr (Or.inl e.symm))
    have ih2 := ih (fun m => h (List.mem_cons_of_mem c m))
    simp [splitUnd, hc, ih2]

theorem splitUnd_append (a b : List Char) (h : '_' ∉ a) :
    splitUnd (a ++ '_' :: b) = a :: splitUnd b := by
  induction a with
  | nil => simp [splitUnd]
  | cons c cs ih =>
    have hc : c ≠ '_' := fun e => h (List.mem_cons.mpr (Or.inl e.symm))
    have ih2 := ih (fun m => h (List.mem_cons_of_mem c m))
    simp [splitUnd, hc, ih2]

theorem payload3_split (tag act id : List Char)
    (ht : '_' ∉ tag) (ha : '_' ∉ act) (hi : '_' ∉ id) :
    splitUnd (tag ++ '_' :: (act ++ '_' :: id)) = [tag, act, id] := by
  rw [splitUnd_append _ _ ht, splitUnd_append _ _ ha, splitUnd_no_und _ hi]

theorem payload4_split (tag act id uid : List Char)
    (ht : '_' ∉ tag) (ha : '_' ∉ act) (hi : '_' ∉ id) (hu : '_' ∉ uid) :
    splitUnd (tag ++ '_' :: (act ++ '_' :: (id ++ '_' :: uid))) = [tag, act, id, uid] := by
  rw [splitUnd_append _ _ ht, splitUnd_append _ _ ha, splitUnd_append _ _ hi,
    splitUnd_no_und _ hu]

/-! ### Store lemmas -/

theorem lookup_cons (q : String × Doc) (l : Store) (j : String) :
    Store.lookup (q :: l) j = if q.1 = j then some q.2 else Store.lookup l j := by
  by_cases h : q.1 = j <;> simp [Store.lookup, List.find?, h]

theorem setDoc_cons (q : String × Doc) (l : Store) (id : String) (f : Doc → Doc) :
    Store.setDoc (q :: l) id f
      = (if q.1 = id then (q.1, f q.2) else q) :: Store.setDoc l id f := by
  simp [Store.setDoc]

theorem lookup_setDoc_self (store : Store) (id : String) (f : Doc → Doc) :
    Store.lookup (Store.setDoc store id f) id = (Store.lookup store id).map f := by
  induction store with
  | nil => rfl
  | cons p rest ih =>
    rw [setDoc_cons, lookup_cons, lookup_cons]
    by_cases hp : p.1 = id
    · simp [hp]
    · simp [hp, ih]

theorem lookup_setDoc_other (store : Store) (id j : String) (f : Doc → Doc)
    (h : j ≠ id) :
    Store.lookup (Store.setDoc store id f) j = Store.lookup store j := by
  induction store with
  | nil => rfl
  | cons p rest ih =>
    rw [setDoc_cons, lookup_cons, lookup_cons]
    by_cases hp : p.1 = id
    · have hj : p.1 ≠ j := by rw [hp]; exact fun e => h e.symm
      simp [hp, hj, Ne.symm h, ih]
    · simp [hp, ih]

/-! ### C9 and C1 -/

/-- C9: the payment-verification callback never writes the store: whatever
the payload (accept, reject, malformed) and whatever records exist, the
stored state after the callback is identical to the state before. -/
theorem payment_verification_write_free (store : Store) (payload : String) :
    (handle_payment_verification store payload).store = store := by
  simp only [handle_payment_verification]
  split
  · split
    · split <;> rfl
    · rfl
  · rfl

/-- C1: contrary to the error-propagation policy, the payment-verification
callback invoked with a template id that resolves to no stored record does
not produce a visible failure message: after answering the callback query
it raises `AttributeError` (`to_dict()` returns `None` and `None.get`
fails), so the claimed user-visible message is never sent. -/
theorem payment_missing_record_attribute_error :
    handle_payment_verification [] "pay_acc_T1_42"
      = ⟨[], [Effect.answerQuery], some PyErr.attributeError⟩ ∧
    (handle_payment_verification [] "pay_acc_T1_42").err ≠ none := by
  refine ⟨rfl, ?_⟩
  decide

theorem store_mk (s : Store) (e : List Effect) (x : Option PyErr) :
    (HResult.mk s e x).store = s := rfl

theorem effects_mk (s : Store) (e : List Effect) (x : Option PyErr) :
    (HResult.mk s e x).effects = e := rfl

/-! ### Evaluation lemmas for the callback handlers -/

theorem admin_acc_eval (cfg : Config) (store : Store) (id : String) (d : Doc)
    (hi : '_' ∉ id.data) (hd : Store.lookup store id = some d) :
    handle_admin_approval cfg store ("adm_acc_" ++ id)
      = ⟨Store.setDoc store id (fun e => { e with status := "accepted" }),
         [.answerQuery,
          .sendPhoto (.channel cfg.publicChannelId) d.image_drive_link
            (get_template_caption d)
            [[.link "Preview" d.preview_link,
              .link "Buy" (some ("https://t.me/" ++ cfg.botUsername ++ "?start=" ++ id))]],
          .editCaption "✅ Template Posted to Channel."], none⟩ := by
  have hdata : ("adm_acc_" ++ id).data
      = "adm".data ++ '_' :: ("acc".data ++ '_' :: id.data) := by
    rw [data_append]
    rfl
  unfold handle_admin_approval
  rw [hdata, payload3_split _ _ _ (by decide) (by decide) hi]
  simp [List.get?, mk_data, hd]

theorem admin_rej_eval (cfg : Config) (store : Store) (id : String) (d : Doc)
    (hi : '_' ∉ id.data) (hd : Store.lookup store id = some d) :
    handle_admin_approval cfg store ("adm_rej_" ++ id)
      = ⟨Store.setDoc store id (fun e => { e with status := "rejected" }),
         [.answerQuery, .editCaption "❌ Template Rejected."], none⟩ := by
  have hdata : ("adm_rej_" ++ id).data
      = "adm".data ++ '_' :: ("rej".data ++ '_' :: id.data) := by
    rw [data_append]
    rfl
  unfold handle_admin_approval
  rw [hdata, payload3_split _ _ _ (by decide) (by decide) hi]
  simp [List.get?, mk_data, hd]

theorem admin_missing_eval (cfg : Config) (store : Store) (act id : String)
    (ha : '_' ∉ act.data) (hi : '_' ∉ id.data)
    (hd : Store.lookup store id = none) :
    handle_admin_approval cfg store ("adm_" ++ act ++ "_" ++ id)
      = ⟨store, [.answerQuery,
                 .editCaption "❌ Error: Template no longer exists in Firestore."],
         none⟩ := by
  have hdata : ("adm_" ++ act ++ "_" ++ id).data
      = "adm".data ++ '_' :: (act.data ++ '_' :: id.data) := by
    simp only [data_append, List.append_assoc]
    rfl
  unfold handle_admin_approval
  rw [hdata, payload3_split _ _ _ (by decide) ha hi]
  simp [List.get?, mk_data, hd]

theorem pay_acc_eval (store : Store) (id uid : String) (d : Doc)
    (hi : '_' ∉ id.data) (hu : '_' ∉ uid.data)
    (hd : Store.lookup store id = some d) :
    handle_payment_verification store ("pay_acc_" ++ id ++ "_" ++ uid)
      = ⟨store,
         [.answerQuery,
          .sendMessage (.buyer uid)
            ("✅ Payment Verified! Here is your download link:\n\n" ++
              resolve_download_link d),
          .editCaption "✅ Payment Accepted. Download link sent."], none⟩ := by
  have hdata : ("pay_acc_" ++ id ++ "_" ++ uid).data
      = "pay".data ++ '_' :: ("acc".data ++ '_' :: (id.data ++ '_' :: uid.data)) := by
    simp only [data_append, List.append_assoc]
    rfl
  unfold handle_payment_verification
  rw [hdata, payload4_split _ _ _ _ (by decide) (by decide) hi hu]
  simp [List.get?, mk_data, hd]

theorem pay_rej_eval (store : Store) (id uid : String)
    (hi : '_' ∉ id.data) (hu : '_' ∉ uid.data) :
    handle_payment_verification store ("pay_rej_" ++ id ++ "_" ++ uid)
      = ⟨store,
         [.answerQuery,
          .sendMessage (.buyer uid)
            "❌ Payment verification failed. Please re-upload a valid payment screenshot.",
          .editCaption "❌ Payment Rejected. User notified."], none⟩ := by
  have hdata : ("pay_rej_" ++ id ++ "_" ++ uid).data
      = "pay".data ++ '_' :: ("rej".data ++ '_' :: (id.data ++ '_' :: uid.data)) := by
    simp only [data_append, List.append_assoc]
    rfl
  unfold handle_payment_verification
  rw [hdata, payload4_split _ _ _ _ (by decide) (by decide) hi hu]
  simp [List.get?, mk_data]

/-! ### C2, C10, C8 -/

/-- C2: the approval state machine on a stored record: an accept callback
marks the record accepted, publishes exactly one photo post (rendered
caption, Preview/Buy keyboard, deep-link purchase URL carrying the template
id) to the public channel and edits the admin message to confirm; a reject
callback marks the record rejected with zero channel publications and edits
the admin message; a callback whose record no longer exists edits the admin
message to report the inconsistency and performs no store mutation. -/
theorem approval_state_machine_spec (cfg : Config) (store : Store) (id : String)
    (d : Doc) (hi : '_' ∉ id.data) (hd : Store.lookup store id = some d) :
    (handle_admin_approval cfg store ("adm_acc_" ++ id)
       = ⟨Store.setDoc store id (fun e => { e with status := "accepted" }),
          [.answerQuery,
           .sendPhoto (.channel cfg.publicChannelId) d.image_drive_link
             (get_template_caption d)
             [[.link "Preview" d.preview_link,
               .link "Buy" (some ("https://t.me/" ++ cfg.botUsername ++ "?start=" ++ id))]],
           .editCaption "✅ Template Posted to Channel."], none⟩)
    ∧ Store.lookup (handle_admin_approval cfg store ("adm_acc_" ++ id)).store id
        = some { d with status := "accepted" }
    ∧ (∀ j, j ≠ id →
        Store.lookup (handle_admin_approval cfg store ("adm_acc_" ++ id)).store j
          = Store.lookup store j)
    ∧ ((handle_admin_approval cfg store ("adm_acc_" ++ id)).effects.filter isPublish).length = 1
    ∧ (handle_admin_approval cfg store ("adm_rej_" ++ id)
       = ⟨Store.setDoc store id (fun e => { e with status := "rejected" }),
          [.answerQuery, .editCaption "❌ Template Rejected."], none⟩)
    ∧ Store.lookup (handle_admin_approval cfg store ("adm_rej_" ++ id)).store id
        = some { d with status := "rejected" }
    ∧ ((handle_admin_approval cfg store ("adm_rej_" ++ id)).effects.filter isPublish).length = 0
    ∧ (∀ (act id2 : String), '_' ∉ act.data → '_' ∉ id2.data →
        Store.lookup store id2 = none →
        handle_admin_approval cfg store ("adm_" ++ act ++ "_" ++ id2)
          = ⟨store, [.answerQuery,
                     .editCaption "❌ Error: Template no longer exists in Firestore."],
             none⟩) := by
  have hacc := admin_acc_eval cfg store id d hi hd
  have hrej := admin_rej_eval cfg store id d hi hd
  refine ⟨hacc, ?_, ?_, ?_, hrej, ?_, ?_, ?_⟩
  · rw [hacc]
    simp [lookup_setDoc_self, hd]
  · intro j hj
    rw [hacc, store_mk]
    exact lookup_setDoc_other store id j _ hj
  · rw [hacc]
    simp [isPublish]
  · rw [hrej]
    simp [lookup_setDoc_self, hd]
  · rw [hrej]
    simp [isPublish]
  · intro act id2 ha hi2 hd2
    exact admin_missing_eval cfg store act id2 ha hi2 hd2

/-- C10: the approval callback checks no status precondition: for any
stored record of any current status, accept sets the status to accepted and
performs one channel publication, reject sets the status to rejected, and a
repeated accept on the already-accepted record performs one further channel
publication. -/
theorem approval_no_status_precondition (cfg : Config) (store : Store)
    (id : String) (d : Doc) (hi : '_' ∉ id.data)
    (hd : Store.lookup store id = some d) :
    Store.lookup (handle_admin_approval cfg store ("adm_acc_" ++ id)).store id
      = some { d with status := "accepted" }
    ∧ ((handle_admin_approval cfg store ("adm_acc_" ++ id)).effects.filter isPublish).length = 1
    ∧ Store.lookup (handle_admin_approval cfg store ("adm_rej_" ++ id)).store id
      = some { d with status := "rejected" }
    ∧ ((handle_admin_approval cfg
          (handle_admin_approval cfg store ("adm_acc_" ++ id)).store
          ("adm_acc_" ++ id)).effects.filter isPublish).length = 1 := by
  have hacc := admin_acc_eval cfg store id d hi hd
  have hrej := admin_rej_eval cfg store id d hi hd
  have hlook1 : Store.lookup (handle_admin_approval cfg store ("adm_acc_" ++ id)).store id
      = some { d with status := "accepted" } := by
    rw [hacc]
    simp [lookup_setDoc_self, hd]
  refine ⟨hlook1, ?_, ?_, ?_⟩
  · rw [hacc]
    simp [isPublish]
  · rw [hrej]
    simp [lookup_setDoc_self, hd]
  · have hacc2 := admin_acc_eval cfg (handle_admin_approval cfg store ("adm_acc_" ++ id)).store
      id { d with status := "accepted" } hi hlook1
    rw [hacc2]
    simp [isPublish]

/-- C8: on payment acceptance for a stored record, the buyer is messaged
with the resolved deliverable link and the admin message is edited to
confirm release; the link preference order is the `zip_drive_link` field
when present and non-empty, else the `website_zip` field when present and
non-empty, else the literal not-found placeholder. -/
theorem payment_accept_link_resolution (store : Store) (id uid : String) (d : Doc)
    (hi : '_' ∉ id.data) (hu : '_' ∉ uid.data)
    (hd : Store.lookup store id = some d) :
    (handle_payment_verification store ("pay_acc_" ++ id ++ "_" ++ uid)
       = ⟨store,
          [.answerQuery,
           .sendMessage (.buyer uid)
             ("✅ Payment Verified! Here is your download link:\n\n" ++
               resolve_download_link d),
           .editCaption "✅ Payment Accepted. Download link sent."], none⟩)
    ∧ (∀ z, d.zip_drive_link = some z → z ≠ "" → resolve_download_link d = z)
    ∧ (∀ w, (d.zip_drive_link = none ∨ d.zip_drive_link = some "") →
        d.website_zip = some w → w ≠ "" → resolve_download_link d = w)
    ∧ ((d.zip_drive_link = none ∨ d.zip_drive_link = some "") →
       (d.website_zip = none ∨ d.website_zip = some "") →
       resolve_download_link d = "Link not found.") := by
  refine ⟨pay_acc_eval store id uid d hi hu hd, ?_, ?_, ?_⟩
  · intro z hz hne
    simp [resolve_download_link, hz, hne]
  · intro w hz hw hne
    rcases hz with hz | hz <;> simp [resolve_download_link, hz, hw, hne]
  · intro hz hw
    rcases hz with hz | hz <;> rcases hw with hw | hw <;>
      simp [resolve_download_link, hz, hw]

/-! ### Poller lemmas -/

theorem pollStep_pending_ok (a : ℤ) (ok : String → Bool) (i : String) (d : Doc)
    (hp : d.status = "pending") (hok : ok i = true) :
    pollStep a ok (i, d)
      = ((i, { d with status := "waiting" }),
         [.sendPhoto (.admin a) (d.image_drive_link.map fix_drive_link)
            (get_template_caption d) (pollKeyboard i d),
          .logInfo ("Post " ++ i ++ " moved to waiting status.")]) := by
  simp [pollStep, hp, hok]

theorem pollStep_pending_fail (a : ℤ) (ok : String → Bool) (i : String) (d : Doc)
    (hp : d.status = "pending") (hok : ok i = false) :
    pollStep a ok (i, d) = ((i, d), [.logError ("Error sending pending post " ++ i)]) := by
  simp [pollStep, hp, hok]

theorem pollStep_skip (a : ℤ) (ok : String → Bool) (i : String) (d : Doc)
    (hp : d.status ≠ "pending") :
    pollStep a ok (i, d) = ((i, d), []) := by
  simp [pollStep, hp]

theorem runPoll_cons (a : ℤ) (ok : String → Bool) (p : String × Doc) (rest : Store) :
    runPoll a ok (p :: rest)
      = ((pollStep a ok p).1 :: (runPoll a ok rest).1,
         (pollStep a ok p).2 ++ (runPoll a ok rest).2) := rfl

theorem runPoll_append (a : ℤ) (ok : String → Bool) (l1 l2 : Store) :
    runPoll a ok (l1 ++ l2)
      = ((runPoll a ok l1).1 ++ (runPoll a ok l2).1,
         (runPoll a ok l1).2 ++ (runPoll a ok l2).2) := by
  induction l1 with
  | nil => simp [runPoll]
  | cons p rest ih => simp [runPoll, ih]

theorem runPoll_store_all_ok (a : ℤ) (store : Store) :
    (runPoll a (fun _ => true) store).1
      = store.map (fun p =>
          if p.2.status = "pending" then (p.1, { p.2 with status := "waiting" }) else p) := by
  induction store with
  | nil => rfl
  | cons p rest ih =>
    by_cases hp : p.2.status = "pending"
    · rw [runPoll_cons, pollStep_pending_ok a _ p.1 p.2 hp rfl]
      simp [hp, ih]
    · rw [runPoll_cons, pollStep_skip a _ p.1 p.2 hp]
      simp [hp, ih]

theorem runPoll_notifs_all_ok (a : ℤ) (store : Store) :
    ((runPoll a (fun _ => true) store).2.filter isNotif)
      = (store.filter (fun p => p.2.status = "pending")).map
          (fun p => Effect.sendPhoto (Chat.admin a) (p.2.image_drive_link.map fix_drive_link)
            (get_template_caption p.2) (pollKeyboard p.1 p.2)) := by
  induction store with
  | nil => rfl
  | cons p rest ih =>
    by_cases hp : p.2.status = "pending"
    · rw [runPoll_cons, pollStep_pending_ok a _ p.1 p.2 hp rfl]
      simp [hp, ih, isNotif, List.filter_cons]
    · rw [runPoll_cons, pollStep_skip a _ p.1 p.2 hp]
      simp [hp, ih]

theorem runPoll_no_pending_no_notifs (a : ℤ) (ok : String → Bool) (store : Store)
    (h : ∀ p ∈ store, p.2.status ≠ "pending") :
    ((runPoll a ok store).2.filter isNotif) = [] := by
  induction store with
  | nil => rfl
  | cons p rest ih =>
    rw [runPoll_cons, pollStep_skip a ok p.1 p.2 (h p (List.mem_cons_self p rest))]
    simpa using ih (fun q hq => h q (List.mem_cons_of_mem p hq))

/-! ### C3 and C4 -/

/-- C3: one poll tick with a registered admin and all dispatches succeeding
transitions exactly the pending records to waiting (all other statuses are
unchanged), sends exactly one admin notification per pending record, and a
second immediate tick on the resulting state sends zero notifications. -/
theorem poller_tick_idempotent (a : ℤ) (store : Store) :
    (check_pending_templates (some a) (fun _ => true) store).1
      = store.map (fun p =>
          if p.2.status = "pending" then (p.1, { p.2 with status := "waiting" }) else p)
    ∧ ((check_pending_templates (some a) (fun _ => true) store).2.filter isNotif)
      = (store.filter (fun p => p.2.status = "pending")).map
          (fun p => Effect.sendPhoto (Chat.admin a) (p.2.image_drive_link.map fix_drive_link)
            (get_template_caption p.2) (pollKeyboard p.1 p.2))
    ∧ ((check_pending_templates (some a) (fun _ => true)
          ((check_pending_templates (some a) (fun _ => true) store).1)).2.filter isNotif)
        = [] := by
  refine ⟨runPoll_store_all_ok a store, runPoll_notifs_all_ok a store, ?_⟩
  show ((runPoll a (fun _ => true) ((runPoll a (fun _ => true) store).1)).2.filter isNotif) = []
  apply runPoll_no_pending_no_notifs
  rw [runPoll_store_all_ok a store]
  intro p hp
  rcases List.mem_map.mp hp with ⟨q, _, rfl⟩
  by_cases hq : q.2.status = "pending" <;> simp [hq]

/-- C4: a pending record whose dispatch to the admin fails stays pending
(the status is flipped to waiting only when the dispatch succeeds), the
failure is logged, and the records before and after it in the batch are
processed exactly as they would be on their own. -/
theorem poller_per_record_failure_isolation (a : ℤ) (ok : String → Bool)
    (doc_id : String) (d : Doc) (l1 l2 : Store)
    (hp : d.status = "pending") (hf : ok doc_id = false) :
    (check_pending_templates (some a) ok (l1 ++ (doc_id, d) :: l2)).1
      = (check_pending_templates (some a) ok l1).1
          ++ (doc_id, d) :: (check_pending_templates (some a) ok l2).1
    ∧ (check_pending_templates (some a) ok (l1 ++ (doc_id, d) :: l2)).2
      = (check_pending_templates (some a) ok l1).2
          ++ Effect.logError ("Error sending pending post " ++ doc_id)
            :: (check_pending_templates (some a) ok l2).2
    ∧ (∀ (i : String) (e : Doc), e.status = "pending" → ok i = true →
        pollStep a ok (i, e)
          = ((i, { e with status := "waiting" }),
             [Effect.sendPhoto (Chat.admin a) (e.image_drive_link.map fix_drive_link)
                (get_template_caption e) (pollKeyboard i e),
              Effect.logInfo ("Post " ++ i ++ " moved to waiting status.")])) := by
  have hmid := pollStep_pending_fail a ok doc_id d hp hf
  have happ := runPoll_append a ok l1 ((doc_id, d) :: l2)
  constructor
  · show (runPoll a ok (l1 ++ (doc_id, d) :: l2)).1 = _
    rw [happ, runPoll_cons, hmid]
    simp [check_pending_templates]
  constructor
  · show (runPoll a ok (l1 ++ (doc_id, d) :: l2)).2 = _
    rw [happ, runPoll_cons, hmid]
    simp [check_pending_templates]
  · intro i e hpe hok
    exact pollStep_pending_ok a ok i e hpe hok

/-! ### List scanning lemmas -/

theorem filter_of_all {p : Char → Bool} (l : List Char) (h : ∀ x ∈ l, p x = true) :
    l.filter p = l := by
  induction l with
  | nil => rfl
  | cons c cs ih =>
    rw [List.filter_cons]
    simp [h c (List.mem_cons_self c cs), ih (fun x hx => h x (List.mem_cons_of_mem c hx))]

theorem takeWhile_of_all {p : Char → Bool} (l : List Char) (h : ∀ x ∈ l, p x = true) :
    l.takeWhile p = l := by
  induction l with
  | nil => rfl
  | cons c cs ih =>
    rw [List.takeWhile_cons]
    simp [h c (List.mem_cons_self c cs), ih (fun x hx => h x (List.mem_cons_of_mem c hx))]

theorem dropWhile_of_all {p : Char → Bool} (l : List Char) (h : ∀ x ∈ l, p x = true) :
    l.dropWhile p = [] := by
  induction l with
  | nil => rfl
  | cons c cs ih =>
    rw [List.dropWhile_cons]
    simp [h c (List.mem_cons_self c cs), ih (fun x hx => h x (List.mem_cons_of_mem c hx))]

theorem takeWhile_append_cons {p : Char → Bool} (a : List Char) (c : Char) (b : List Char)
    (ha : ∀ x ∈ a, p x = true) (hc : p c = false) :
    (a ++ c :: b).takeWhile p = a := by
  induction a with
  | nil => simp [List.takeWhile_cons, hc]
  | cons x xs ih =>
    rw [List.cons_append, List.takeWhile_cons]
    simp [ha x (List.mem_cons_self x xs), ih (fun y hy => ha y (List.mem_cons_of_mem x hy))]

theorem dropWhile_append_cons {p : Char → Bool} (a : List Char) (c : Char) (b : List Char)
    (ha : ∀ x ∈ a, p x = true) (hc : p c = false) :
    (a ++ c :: b).dropWhile p = c :: b := by
  induction a with
  | nil => simp [List.dropWhile_cons, hc]
  | cons x xs ih =>
    rw [List.cons_append, List.dropWhile_cons]
    simp [ha x (List.mem_cons_self x xs), ih (fun y hy => ha y (List.mem_cons_of_mem x hy))]

theorem dropWhile_append_all {p : Char → Bool} (a b : List Char)
    (ha : ∀ x ∈ a, p x = true) :
    (a ++ b).dropWhile p = b.dropWhile p := by
  induction a with
  | nil => rfl
  | cons x xs ih =>
    rw [List.cons_append, List.dropWhile_cons]
    simp [ha x (List.mem_cons_self x xs), ih (fun y hy => ha y (List.mem_cons_of_mem x hy))]

/-! ### Character classification lemmas -/

theorem pySpace_mem (c : Char) (h : pySpace c = true) :
    c = ' ' ∨ c = '\t' ∨ c = '\n' ∨ c = '\r' ∨ c = '\x0b' ∨ c = '\x0c' := by
  have h2 := h
  simp [pySpace] at h2
  tauto

theorem space_facts (c : Char) (h : pySpace c = true) : c ≠ '$' ∧ c ≠ ',' := by
  rcases pySpace_mem c h with rfl | rfl | rfl | rfl | rfl | rfl <;>
    exact ⟨by decide, by decide⟩

theorem digit_facts (ch : Char) (h : ch.isDigit = true) :
    pySpace ch = false ∧ ch ≠ '$' ∧ ch ≠ ',' ∧ ch ≠ '.' ∧ ch ≠ '+' ∧ ch ≠ '-' := by
  constructor
  · cases hps : pySpace ch with
    | false => rfl
    | true =>
      rcases pySpace_mem ch hps with rfl | rfl | rfl | rfl | rfl | rfl <;>
        exact absurd h (by decide)
  · refine ⟨?_, ?_, ?_, ?_, ?_⟩ <;> (intro e; subst e; exact absurd h (by decide))

theorem digitChar_isDigit (d : ℕ) (h : d < 10) : (digitChar d).isDigit = true := by
  interval_cases d <;> decide

theorem digitChar_toNat (d : ℕ) (h : d < 10) : (digitChar d).toNat = 48 + d := by
  interval_cases d <;> decide

/-! ### pad2 lemmas -/

theorem pad2_length (m : ℕ) : (pad2 m).length = 2 := by
  unfold pad2; split <;> rfl

theorem pad2_ne_nil (m : ℕ) : pad2 m ≠ [] := by
  unfold pad2; split <;> simp

theorem pad2_all_digits (m : ℕ) (h : m < 100) : ∀ ch ∈ pad2 m, ch.isDigit = true := by
  intro ch hch
  unfold pad2 at hch
  by_cases h10 : m < 10
  · simp [h10] at hch
    rcases hch with rfl | rfl
    · decide
    · exact digitChar_isDigit m h10
  · simp [h10] at hch
    rcases hch with rfl | rfl
    · exact digitChar_isDigit (m / 10) (by omega)
    · exact digitChar_isDigit (m % 10) (by omega)

theorem pad2_shape (m : ℕ) (h : m < 100) :
    ∃ x y, pad2 m = [x, y] ∧ x.isDigit = true ∧ y.isDigit = true := by
  by_cases h10 : m < 10
  · exact ⟨'0', digitChar m, by simp [pad2, h10], by decide, digitChar_isDigit m h10⟩
  · exact ⟨digitChar (m / 10), digitChar (m % 10), by simp [pad2, h10],
      digitChar_isDigit (m / 10) (by omega), digitChar_isDigit (m % 10) (by omega)⟩

theorem digitsVal_pair (x y : Char) :
    digitsVal [x, y] = 10 * (10 * 0 + (x.toNat - 48)) + (y.toNat - 48) := rfl

theorem digitsVal_pad2 (m : ℕ) (h : m < 100) : digitsVal (pad2 m) = m := by
  have h48 : ('0' : Char).toNat = 48 := rfl
  by_cases h10 : m < 10
  · rw [show pad2 m = ['0', digitChar m] from by simp [pad2, h10],
      digitsVal_pair, h48, digitChar_toNat m h10]
    omega
  · rw [show pad2 m = [digitChar (m / 10), digitChar (m % 10)] from by simp [pad2, h10],
      digitsVal_pair, digitChar_toNat (m / 10) (by omega), digitChar_toNat (m % 10) (by omega)]
    omega

/-! ### Evaluation of pyStrip and pyFloat on a well-formed price -/

theorem pyStrip_sandwich (ws1 mid ws2 : List Char)
    (h1 : ∀ x ∈ ws1, pySpace x = true) (h2 : ∀ x ∈ ws2, pySpace x = true)
    (hhead : ∃ c r, mid = c :: r ∧ pySpace c = false)
    (hlast : ∃ c p, mid = p ++ [c] ∧ pySpace c = false) :
    pyStrip (ws1 ++ (mid ++ ws2)) = mid := by
  obtain ⟨c, r, hm, hcf⟩ := hhead
  obtain ⟨cl, pl, hml, hclf⟩ := hlast
  unfold pyStrip
  rw [dropWhile_append_all ws1 (mid ++ ws2) h1, hm, List.cons_append,
    List.dropWhile_cons]
  simp only [hcf, Bool.false_eq_true, if_false, ← List.cons_append, ← hm]
  rw [List.reverse_append,
    dropWhile_append_all ws2.reverse mid.reverse
      (fun x hx => h2 x (List.mem_reverse.mp hx)),
    hml, List.reverse_append]
  simp only [List.reverse_cons, List.reverse_nil, List.nil_append, List.cons_append,
    List.dropWhile_cons, hclf, Bool.false_eq_true, if_false]
  simp

theorem pyFloat_digits_dot_pad (dsd : List Char) (c : ℕ)
    (hds : ∀ ch ∈ dsd, ch.isDigit = true) (hc : c < 100) :
    pyFloat (dsd ++ '.' :: pad2 c) = some ((digitsVal dsd : ℚ) + (c : ℚ) / 100) := by
  have h7 : ∀ x : Char, (dsd ++ '.' :: pad2 c).head? = some x → x ≠ '+' ∧ x ≠ '-' := by
    cases dsd with
    | nil =>
      intro x hx
      simp at hx
      subst hx
      exact ⟨by decide, by decide⟩
    | cons d ds' =>
      intro x hx
      simp at hx
      subst hx
      have hd := digit_facts d (hds d (List.mem_cons_self d ds'))
      exact ⟨hd.2.2.2.2.1, hd.2.2.2.2.2⟩
  have h7a : ¬(dsd ++ '.' :: pad2 c).head? = some '+' := fun e => (h7 '+' e).1 rfl
  have h7b : ¬(dsd ++ '.' :: pad2 c).head? = some '-' := fun e => (h7 '-' e).2 rfl
  have h1 : (dsd ++ '.' :: pad2 c).takeWhile Char.isDigit = dsd :=
    takeWhile_append_cons dsd '.' (pad2 c) hds (by decide)
  have h2 : (dsd ++ '.' :: pad2 c).dropWhile Char.isDigit = '.' :: pad2 c :=
    dropWhile_append_cons dsd '.' (pad2 c) hds (by decide)
  have h3 : (pad2 c).takeWhile Char.isDigit = pad2 c :=
    takeWhile_of_all (pad2 c) (pad2_all_digits c hc)
  have h4 : (pad2 c).dropWhile Char.isDigit = [] :=
    dropWhile_of_all (pad2 c) (pad2_all_digits c hc)
  have h9 : (pad2 c).isEmpty = false := by
    cases hp : pad2 c with
    | nil => exact absurd hp (pad2_ne_nil c)
    | cons u v => rfl
  simp only [pyFloat, h7a, h7b, decide_False, Bool.or_self, Bool.false_eq_true,
    if_false, h1, h2, List.head?_cons, List.tail_cons, h3, h4, h9, Bool.and_false,
    Bool.not_false, Bool.true_eq_false, eq_self_iff_true, if_true]
  rw [pad2_length, digitsVal_pad2 c hc]
  norm_num

theorem data_mk (l : List Char) : (String.mk l).data = l := rfl

theorem parse_price_some (s : String) :
    parse_price (some s)
      = match pyFloat (pyStrip (removeChar ',' (removeChar '$' s.data))) with
        | some q => q * 10
        | none => 0 := rfl

/-! ### removeChar lemmas -/

theorem removeChar_cons (c x : Char) (l : List Char) :
    removeChar c (x :: l) = if x = c then removeChar c l else x :: removeChar c l := by
  by_cases h : x = c <;> simp [removeChar, List.filter_cons, h]

theorem removeChar_append (c : Char) (a b : List Char) :
    removeChar c (a ++ b) = removeChar c a ++ removeChar c b := by
  simp [removeChar]

theorem removeChar_of_all_ne (c : Char) (l : List Char) (h : ∀ x ∈ l, x ≠ c) :
    removeChar c l = l :=
  filter_of_all l (fun x hx => by simp [h x hx])

theorem removeChar_comma_digits (ds : List Char)
    (h : ∀ ch ∈ ds, ch.isDigit = true ∨ ch = ',') :
    removeChar ',' ds = ds.filter Char.isDigit := by
  induction ds with
  | nil => rfl
  | cons d dtl ih =>
    have ih2 := ih (fun x hx => h x (List.mem_cons_of_mem d hx))
    rw [removeChar_cons, List.filter_cons]
    rcases h d (List.mem_cons_self d dtl) with hd | hd
    · rw [if_neg (digit_facts d hd).2.2.1, ih2]
      simp [hd]
    · subst hd
      rw [if_pos rfl, ih2]
      have hcd : (',' : Char).isDigit = false := by decide
      simp [hcd]

/-! ### C5 -/

/-- C5: for a well-formed currency string (dollar sign, digits with
optional thousands separators, a dot, two cents digits, optional
surrounding whitespace), `parse_price` returns the numeric value times
exactly ten; for `None`, the empty string, or any string whose cleaned
form does not parse as a float, it returns exactly `0.0` (no exception
escapes: the model is a total function). -/
theorem parse_price_spec :
    (∀ (ws1 ds ws2 : List Char) (c : ℕ),
        (∀ ch ∈ ws1, pySpace ch = true) →
        (∀ ch ∈ ws2, pySpace ch = true) →
        (∀ ch ∈ ds, ch.isDigit = true ∨ ch = ',') →
        c < 100 →
        parse_price (some (String.mk (ws1 ++ '$' :: (ds ++ '.' :: (pad2 c ++ ws2)))))
          = 10 * ((digitsVal (ds.filter Char.isDigit) : ℚ) + (c : ℚ) / 100))
    ∧ parse_price none = 0
    ∧ parse_price (some "") = 0
    ∧ (∀ s : String,
        pyFloat (pyStrip (removeChar ',' (removeChar '$' s.data))) = none →
        parse_price (some s) = 0) := by
  refine ⟨?_, rfl, rfl, ?_⟩
  · intro ws1 ds ws2 c h1 h2 h3 hc
    have hws1d : ∀ x ∈ ws1, x ≠ '$' := fun x hx => (space_facts x (h1 x hx)).1
    have hws1c : ∀ x ∈ ws1, x ≠ ',' := fun x hx => (space_facts x (h1 x hx)).2
    have hT : ∀ x ∈ ds ++ '.' :: (pad2 c ++ ws2), x ≠ '$' := by
      intro x hx
      rcases List.mem_append.mp hx with hx | hx
      · rcases h3 x hx with hd | hd
        · exact (digit_facts x hd).2.1
        · subst hd; decide
      · rcases List.mem_cons.mp hx with rfl | hx
        · decide
        · rcases List.mem_append.mp hx with hx | hx
          · exact (digit_facts x (pad2_all_digits c hc x hx)).2.1
          · exact (space_facts x (h2 x hx)).1
    have hpadws2c : ∀ x ∈ pad2 c ++ ws2, x ≠ ',' := by
      intro x hx
      rcases List.mem_append.mp hx with hx | hx
      · exact (digit_facts x (pad2_all_digits c hc x hx)).2.2.1
      · exact (space_facts x (h2 x hx)).2
    have hF1 : removeChar '$' (ws1 ++ '$' :: (ds ++ '.' :: (pad2 c ++ ws2)))
        = ws1 ++ (ds ++ '.' :: (pad2 c ++ ws2)) := by
      rw [removeChar_append, removeChar_cons, if_pos rfl,
        removeChar_of_all_ne '$' ws1 hws1d, removeChar_of_all_ne '$' _ hT]
    have hF2 : removeChar ',' (ws1 ++ (ds ++ '.' :: (pad2 c ++ ws2)))
        = ws1 ++ (ds.filter Char.isDigit ++ '.' :: (pad2 c ++ ws2)) := by
      rw [removeChar_append, removeChar_append, removeChar_of_all_ne ',' ws1 hws1c,
        removeChar_comma_digits ds h3, removeChar_cons, if_neg (by decide),
        removeChar_of_all_ne ',' _ hpadws2c]
    have hdsd : ∀ ch ∈ ds.filter Char.isDigit, ch.isDigit = true := by
      intro ch hch; exact (List.mem_filter.mp hch).2
    have hgroup : ws1 ++ (ds.filter Char.isDigit ++ '.' :: (pad2 c ++ ws2))
        = ws1 ++ ((ds.filter Char.isDigit ++ '.' :: pad2 c) ++ ws2) := by
      simp [List.append_assoc]
    have hhead : ∃ ch r, (ds.filter Char.isDigit ++ '.' :: pad2 c) = ch :: r ∧
        pySpace ch = false := by
      cases hdf : ds.filter Char.isDigit with
      | nil => exact ⟨'.', pad2 c, by simp, by decide⟩
      | cons u v =>
        refine ⟨u, v ++ '.' :: pad2 c, by simp, ?_⟩
        exact (digit_facts u (hdsd u (by rw [hdf]; exact List.mem_cons_self u v))).1
    have hlast : ∃ ch p, (ds.filter Char.isDigit ++ '.' :: pad2 c) = p ++ [ch] ∧
        pySpace ch = false := by
      obtain ⟨x, y, hxy, _, hy⟩ := pad2_shape c hc
      refine ⟨y, ds.filter Char.isDigit ++ ['.', x], ?_, (digit_facts y hy).1⟩
      rw [hxy]
      simp
    have hstrip := pyStrip_sandwich ws1 (ds.filter Char.isDigit ++ '.' :: pad2 c) ws2
      h1 h2 hhead hlast
    have hfloat := pyFloat_digits_dot_pad (ds.filter Char.isDigit) c hdsd hc
    rw [parse_price_some, data_mk, hF1, hF2, hgroup, hstrip, hfloat]
    ring
  · intro s hs
    rw [parse_price_some, hs]

/-! ### Lemmas about the link normalizer -/

theorem leadsWith_append (p : List Char) : ∀ (l m : List Char),
    leadsWith p l = true → leadsWith p (l ++ m) = true := by
  induction p with
  | nil => intro l m _; rfl
  | cons x xs ih =>
    intro l m h
    cases l with
    | nil => simp [leadsWith] at h
    | cons c cs =>
      rw [List.cons_append]
      rw [leadsWith] at h ⊢
      by_cases hx : x = c
      · rw [if_pos hx] at h ⊢
        exact ih cs m h
      · rw [if_neg hx] at h
        exact absurd h (by simp)

theorem hasSub_append_left (pat : List Char) : ∀ (l m : List Char),
    hasSub pat l = true → hasSub pat (l ++ m) = true := by
  intro l
  induction l with
  | nil =>
    intro m h
    rw [hasSub] at h
    cases pat with
    | nil =>
      cases m with
      | nil => rfl
      | cons c cs => simp [hasSub, leadsWith]
    | cons a b => simp [leadsWith] at h
  | cons c cs ih =>
    intro m h
    rw [hasSub] at h
    rw [List.cons_append, hasSub]
    rcases Bool.or_eq_true_iff.mp h with h1 | h2
    · have hl := leadsWith_append pat (c :: cs) m h1
      rw [List.cons_append] at hl
      rw [hl]
      simp
    · rw [ih m h2]
      simp

theorem dMatch_nslash (c1 : Char) (l : List Char) (h : c1 ≠ '/') :
    dMatch (c1 :: l) = none := by
  cases l with
  | nil =>
    unfold dMatch
    split
    · next heq => simp at heq
    · rfl
  | cons c2 l2 =>
    unfold dMatch
    split
    · next heq =>
      rw [List.cons.injEq] at heq
      exact absurd heq.1 h
    · rfl

theorem dMatch_slash (c2 : Char) (l : List Char) :
    dMatch ('/' :: c2 :: l)
      = if c2 = '/' then none else some (c2 :: l.takeWhile (fun x => x ≠ '/')) := rfl

theorem reSearchD_cons_nd (c : Char) (l : List Char) (h : c ≠ 'd') :
    reSearchD (c :: l) = reSearchD l := by
  rw [reSearchD, if_neg h]

theorem reSearchD_d_nslash (c1 : Char) (l : List Char) (h : c1 ≠ '/') :
    reSearchD ('d' :: c1 :: l) = reSearchD (c1 :: l) := by
  rw [reSearchD, if_pos rfl, dMatch_nslash c1 l h]

theorem reSearchD_dslash_hit (c2 : Char) (l : List Char) (h : c2 ≠ '/') :
    reSearchD ('d' :: '/' :: c2 :: l)
      = some (c2 :: l.takeWhile (fun x => x ≠ '/')) := by
  rw [reSearchD, if_pos rfl, dMatch_slash, if_neg h]

theorem reSearchD_canonical (i0 : Char) (idc rest : List Char)
    (h0 : i0 ≠ '/') (hslash : '/' ∉ idc) :
    reSearchD ("https://drive.google.com/file/d/".data ++ ((i0 :: idc) ++ '/' :: rest))
      = some (i0 :: idc) := by
  show reSearchD ('h' :: 't' :: 't' :: 'p' :: 's' :: ':' :: '/' :: '/' ::
    'd' :: 'r' :: 'i' :: 'v' :: 'e' :: '.' :: 'g' :: 'o' :: 'o' :: 'g' :: 'l' :: 'e' ::
    '.' :: 'c' :: 'o' :: 'm' :: '/' :: 'f' :: 'i' :: 'l' :: 'e' :: '/' ::
    'd' :: '/' :: (i0 :: (idc ++ '/' :: rest))) = some (i0 :: idc)
  rw [reSearchD_cons_nd 'h' _ (by decide), reSearchD_cons_nd 't' _ (by decide),
    reSearchD_cons_nd 't' _ (by decide), reSearchD_cons_nd 'p' _ (by decide),
    reSearchD_cons_nd 's' _ (by decide), reSearchD_cons_nd ':' _ (by decide),
    reSearchD_cons_nd '/' _ (by decide), reSearchD_cons_nd '/' _ (by decide),
    reSearchD_d_nslash 'r' _ (by decide), reSearchD_cons_nd 'r' _ (by decide),
    reSearchD_cons_nd 'i' _ (by decide), reSearchD_cons_nd 'v' _ (by decide),
    reSearchD_cons_nd 'e' _ (by decide), reSearchD_cons_nd '.' _ (by decide),
    reSearchD_cons_nd 'g' _ (by decide), reSearchD_cons_nd 'o' _ (by decide),
    reSearchD_cons_nd 'o' _ (by decide), reSearchD_cons_nd 'g' _ (by decide),
    reSearchD_cons_nd 'l' _ (by decide), reSearchD_cons_nd 'e' _ (by decide),
    reSearchD_cons_nd '.' _ (by decide), reSearchD_cons_nd 'c' _ (by decide),
    reSearchD_cons_nd 'o' _ (by decide), reSearchD_cons_nd 'm' _ (by decide),
    reSearchD_cons_nd '/' _ (by decide), reSearchD_cons_nd 'f' _ (by decide),
    reSearchD_cons_nd 'i' _ (by decide), reSearchD_cons_nd 'l' _ (by decide),
    reSearchD_cons_nd 'e' _ (by decide), reSearchD_cons_nd '/' _ (by decide),
    reSearchD_dslash_hit i0 (idc ++ '/' :: rest) h0]
  have hall : ∀ x ∈ idc, x ≠ '/' := fun x hx e => hslash (e ▸ hx)
  rw [takeWhile_append_cons idc '/' rest (fun x hx => by simp [hall x hx]) (by decide)]

/-! ### C6 -/

/-- C6: the link normalizer returns any empty or non-Drive link
byte-identical; when the Drive marker is present and the `d/{id}` pattern
matches, it returns the direct-fetch URL keyed by the extracted identifier
(in particular for the canonical sharing-URL shape); when the marker is
present but the pattern does not match, the original link is returned
unchanged. -/
theorem fix_drive_link_spec :
    (∀ link : String,
        link = "" ∨ hasSub "drive.google.com".data link.data = false →
        fix_drive_link link = link)
    ∧ (∀ (link : String) (idc : List Char),
        hasSub "drive.google.com".data link.data = true →
        reSearchD link.data = some idc →
        fix_drive_link link = "https://drive.google.com/uc?id=" ++ String.mk idc)
    ∧ (∀ link : String,
        hasSub "drive.google.com".data link.data = true →
        reSearchD link.data = none →
        fix_drive_link link = link)
    ∧ (∀ (idc rest : List Char), idc ≠ [] → '/' ∉ idc →
        fix_drive_link (String.mk ("https://drive.google.com/file/d/".data ++ (idc ++ '/' :: rest)))
          = "https://drive.google.com/uc?id=" ++ String.mk idc) := by
  have hmarker_empty : hasSub "drive.google.com".data ("" : String).data = false := by decide
  refine ⟨?_, ?_, ?_, ?_⟩
  · intro link h
    rcases h with rfl | h
    · rfl
    · by_cases he : link = ""
      · subst he; rfl
      · rw [fix_drive_link, if_neg he, if_pos h]
  · intro link idc hmk hre
    have he : link ≠ "" := by
      intro e
      subst e
      rw [hmarker_empty] at hmk
      exact absurd hmk (by decide)
    rw [fix_drive_link, if_neg he, if_neg (by rw [hmk]; decide), hre]
  · intro link hmk hre
    have he : link ≠ "" := by
      intro e
      subst e
      rw [hmarker_empty] at hmk
      exact absurd hmk (by decide)
    rw [fix_drive_link, if_neg he, if_neg (by rw [hmk]; decide), hre]
  · intro idc rest hne hslash
    obtain ⟨i0, idc2, rfl⟩ := List.exists_cons_of_ne_nil hne
    have h0 : i0 ≠ '/' := fun e => hslash (by rw [e]; exact List.mem_cons_self _ _)
    have hsl2 : '/' ∉ idc2 := fun hx => hslash (List.mem_cons_of_mem i0 hx)
    have hmk : hasSub "drive.google.com".data
        (String.mk ("https://drive.google.com/file/d/".data ++ ((i0 :: idc2) ++ '/' :: rest))).data
        = true := by
      rw [data_mk]
      rw [show "https://drive.google.com/file/d/".data ++ ((i0 :: idc2) ++ '/' :: rest)
          = "https://drive.google.com".data ++ ("/file/d/".data ++ ((i0 :: idc2) ++ '/' :: rest))
        from by simp]
      exact hasSub_append_left _ _ _ (by decide)
    have hre : reSearchD
        (String.mk ("https://drive.google.com/file/d/".data ++ ((i0 :: idc2) ++ '/' :: rest))).data
        = some (i0 :: idc2) := by
      rw [data_mk]
      exact reSearchD_canonical i0 idc2 rest h0 hsl2
    have he : String.mk ("https://drive.google.com/file/d/".data ++ ((i0 :: idc2) ++ '/' :: rest)) ≠ "" := by
      intro e
      have : ("https://drive.google.com/file/d/".data ++ ((i0 :: idc2) ++ '/' :: rest)) = ("" : String).data := by
        rw [← data_mk ("https://drive.google.com/file/d/".data ++ ((i0 :: idc2) ++ '/' :: rest)), e]
      simp at this
    rw [fix_drive_link, if_neg he, if_neg (by rw [hmk]; decide), hre]

/-! ### Lemmas about the caption renderer -/

theorem escChar_no_raw (c ch : Char) (h : ch ∈ escChar c) :
    ch ≠ '<' ∧ ch ≠ '>' ∧ ch ≠ '"' ∧ ch ≠ '\'' := by
  unfold escChar at h
  by_cases h1 : c = '&'
  · rw [if_pos h1] at h
    simp at h
    rcases h with rfl | rfl | rfl | rfl | rfl <;> exact ⟨by decide, by decide, by decide, by decide⟩
  rw [if_neg h1] at h
  by_cases h2 : c = '<'
  · rw [if_pos h2] at h
    simp at h
    rcases h with rfl | rfl | rfl | rfl <;> exact ⟨by decide, by decide, by decide, by decide⟩
  rw [if_neg h2] at h
  by_cases h3 : c = '>'
  · rw [if_pos h3] at h
    simp at h
    rcases h with rfl | rfl | rfl | rfl <;> exact ⟨by decide, by decide, by decide, by decide⟩
  rw [if_neg h3] at h
  by_cases h4 : c = '"'
  · rw [if_pos h4] at h
    simp at h
    rcases h with rfl | rfl | rfl | rfl | rfl | rfl <;>
      exact ⟨by decide, by decide, by decide, by decide⟩
  rw [if_neg h4] at h
  by_cases h5 : c = '\''
  · rw [if_pos h5] at h
    simp at h
    rcases h with rfl | rfl | rfl | rfl | rfl | rfl <;>
      exact ⟨by decide, by decide, by decide, by decide⟩
  rw [if_neg h5] at h
  simp at h
  subst h
  exact ⟨h2, h3, h4, h5⟩

theorem escList_no_raw (s : List Char) :
    ∀ ch ∈ escList s, ch ≠ '<' ∧ ch ≠ '>' ∧ ch ≠ '"' ∧ ch ≠ '\'' := by
  induction s with
  | nil => intro ch hch; simp [escList] at hch
  | cons c cs ih =>
    intro ch hch
    rw [escList] at hch
    rcases List.mem_append.mp hch with h | h
    · exact escChar_no_raw c ch h
    · exact ih ch h

/-! ### C7 -/

/-- C7: the caption renderer produces the three-line block name, price,
description in fixed order, each text field HTML-escaped (so no raw
HTML-special character from the name or description survives), with `N/A`,
`No description` and a zero-valued currency string as defaults for missing
fields, and the price always rendered with exactly two decimal digits and
the fixed `Birr` label. -/
theorem get_template_caption_spec (d : Doc) :
    get_template_caption d
      = "<pre>Name: " ++ htmlEscape (d.name.getD "N/A") ++ "</pre>\n" ++
          "<pre>Price: " ++ fmt2 (parse_price (some (d.price.getD "$0"))) ++ " Birr</pre>\n" ++
          "<pre>Description: " ++ htmlEscape (d.description.getD "No description") ++ "</pre>\n"
    ∧ (∀ s : String, ∀ ch ∈ (htmlEscape s).data,
        ch ≠ '<' ∧ ch ≠ '>' ∧ ch ≠ '"' ∧ ch ≠ '\'')
    ∧ (∃ (intPart : String) (m : ℕ), m < 100 ∧
        fmt2 (parse_price (some (d.price.getD "$0")))
          = intPart ++ "." ++ String.mk (pad2 m) ∧
        (pad2 m).length = 2 ∧ ∀ ch ∈ pad2 m, ch.isDigit = true) := by
  refine ⟨rfl, ?_, ?_⟩
  · intro s ch hch
    rw [show (htmlEscape s).data = escList s.data from rfl] at hch
    exact escList_no_raw s.data ch hch
  · rw [fmt2]
    split
    · next hneg =>
      refine ⟨"-" ++ toString ((-(roundHalfEven (parse_price (some (d.price.getD "$0")) * 100))).toNat / 100),
        (-(roundHalfEven (parse_price (some (d.price.getD "$0")) * 100))).toNat % 100,
        Nat.mod_lt _ (by omega), rfl, pad2_length _, pad2_all_digits _ (Nat.mod_lt _ (by omega))⟩
    · next hneg =>
      refine ⟨toString ((roundHalfEven (parse_price (some (d.price.getD "$0")) * 100)).toNat / 100),
        (roundHalfEven (parse_price (some (d.price.getD "$0")) * 100)).toNat % 100,
        Nat.mod_lt _ (by omega), rfl, pad2_length _, pad2_all_digits _ (Nat.mod_lt _ (by omega))⟩

/-! ### Witness instantiations -/

theorem approval_state_machine_spec_witness :
    Store.lookup (handle_admin_approval cfgW [("T1", dW)] ("adm_acc_" ++ "T1")).store "T1"
      = some { dW with status := "accepted" } :=
  (approval_state_machine_spec cfgW [("T1", dW)] "T1" dW (by decide) rfl).2.1

theorem poller_tick_idempotent_witness :
    ((check_pending_templates (some 7) (fun _ => true)
        ((check_pending_templates (some 7) (fun _ => true) [("T1", dP)]).1)).2.filter isNotif)
      = [] :=
  (poller_tick_idempotent 7 [("T1", dP)]).2.2

theorem poller_per_record_failure_isolation_witness :
    (check_pending_templates (some 7) (fun _ => false) ([] ++ ("T1", dP) :: [])).2
      = (check_pending_templates (some 7) (fun _ => false) []).2
          ++ Effect.logError ("Error sending pending post " ++ "T1")
            :: (check_pending_templates (some 7) (fun _ => false) []).2 :=
  (poller_per_record_failure_isolation 7 (fun _ => false) "T1" dP [] [] rfl rfl).2.1

theorem parse_price_spec_witness :
    parse_price (some (String.mk
        ([' '] ++ '$' :: (['1', ',', '2', '3', '4'] ++ '.' :: (pad2 56 ++ [' '])))))
      = 10 * ((digitsVal (['1', ',', '2', '3', '4'].filter Char.isDigit) : ℚ) + (56 : ℚ) / 100) :=
  parse_price_spec.1 [' '] ['1', ',', '2', '3', '4'] [' '] 56
    (by decide) (by decide) (by decide) (by decide)

theorem fix_drive_link_spec_witness :
    fix_drive_link (String.mk
        ("https://drive.google.com/file/d/".data ++ ("ABC".data ++ '/' :: "view".data)))
      = "https://drive.google.com/uc?id=" ++ String.mk "ABC".data :=
  fix_drive_link_spec.2.2.2 "ABC".data "view".data (by decide) (by decide)

theorem get_template_caption_spec_witness :
    get_template_caption dW
      = "<pre>Name: " ++ htmlEscape (dW.name.getD "N/A") ++ "</pre>
" ++
          "<pre>Price: " ++ fmt2 (parse_price (some (dW.price.getD "$0"))) ++ " Birr</pre>
" ++
          "<pre>Description: " ++ htmlEscape (dW.description.getD "No description") ++ "</pre>
" :=
  (get_template_caption_spec dW).1

theorem payment_accept_link_resolution_witness :
    handle_payment_verification [("T1", dW)] ("pay_acc_" ++ "T1" ++ "_" ++ "42")
      = ⟨[("T1", dW)],
         [.answerQuery,
          .sendMessage (.buyer "42")
            ("✅ Payment Verified! Here is your download link:\n\n" ++ resolve_download_link dW),
          .editCaption "✅ Payment Accepted. Download link sent."], none⟩ :=
  (payment_accept_link_resolution [("T1", dW)] "T1" "42" dW (by decide) (by decide) rfl).1

theorem approval_no_status_precondition_witness :
    Store.lookup (handle_admin_approval cfgW [("T1", dP)] ("adm_acc_" ++ "T1")).store "T1"
      = some { dP with status := "accepted" } :=
  (approval_no_status_precondition cfgW [("T1", dP)] "T1" dP (by decide) rfl).1

end TemplateBot
